import Mathlib

/-!
Shallow embedding of the inferior-process controller of the `deet` debugger
(`src/proj-1/deet/src/inferior.rs`).

The tracee (the traced child process) is modelled as the memory and register
state that the controller can observe and mutate through the trace facility:
`mem` maps an address to the machine word that a trace read at that address
returns (`none` when the address is unmapped and the read fails), and `regs`
is the register file.  The nondeterministic behaviour of the running child
between a resume and the next stop is modelled by a `script`: the list of OS
wait results that successive `waitpid` calls will observe, in order.  Rust
panics (`panic!`, `.expect`, `.unwrap`) are modelled by the `Outcome.panicked`
constructor; `Err` returns by `Outcome.error`.  Machine integers are natural
numbers with explicit `2 ^ 64` bounds where the Rust code relies on the u64 /
usize width.
-/

namespace Deet

abbrev Addr := Nat

abbrev Byte := Nat

abbrev NixError := Nat

/-- The signals the controller distinguishes: it only ever matches on
`SIGTRAP`; every other signal is handled uniformly. -/
inductive Signal where
  | SIGTRAP
  | SIGINT
  | SIGSEGV
deriving DecidableEq, Repr

/-- `Breakpoint` struct of `inferior.rs` (lines 11-15). -/
structure Breakpoint where
  addr : Addr
  orig_byte : Byte
deriving DecidableEq, Repr

/-- `Status` enum of `inferior.rs` (lines 17-28). -/
inductive Status where
  | Stopped (sig : Signal) (rip : Nat)
  | Exited (code : Int)
  | Signaled (sig : Signal)
deriving DecidableEq, Repr

/-- The registers the code reads: instruction pointer and base pointer. -/
structure Regs where
  rip : Nat
  rbp : Nat
deriving DecidableEq, Repr

/-- Observable state of the traced child process.  `mem a` is the word a
trace-memory read at address `a` yields, `none` on failure (unmapped). -/
structure Tracee where
  mem : Addr → Option Nat
  regs : Regs

/-- `Inferior` struct (lines 39-42): the child plus the breakpoint table.
The Rust `HashMap<usize, Breakpoint>` is modelled as a function
`Addr → Option Breakpoint` (unique keys; `insert` overwrites). -/
structure Inferior where
  tracee : Tracee
  breakpoints_map : Addr → Option Breakpoint

/-- Result of a fallible controller operation: `ok` for `Ok`, `error` for
`Err`, `panicked` for a Rust panic (`panic!` / `.expect` / `.unwrap`). -/
inductive Outcome (α : Type) where
  | ok (a : α)
  | error (e : NixError)
  | panicked
deriving DecidableEq, Repr

/-- `ptrace::getregs`: reads the tracee's register file (a value copy). -/
def getregs (t : Tracee) : Regs := t.regs

/-- `align_addr_to_word` (lines 44-46): `addr & (-(size_of::<usize>() as
isize) as usize)`.  On a 64-bit target `-(8 : isize) as usize = 2^64 - 8`. -/
def align_addr_to_word (addr : Addr) : Addr :=
  addr &&& (2 ^ 64 - 8)

/-- Debug-profile Rust `usize` subtraction: `a - b` panics (`none`) when it
would underflow. -/
def usizeSub (a b : Nat) : Option Nat :=
  if b ≤ a then some (a - b) else none

/-- Byte `k` (little-endian) of the word `w`: `(w >> 8*k) & 0xff`. -/
def byteAt (w k : Nat) : Byte :=
  (w >>> (8 * k)) &&& 0xff

/-- `Inferior::write_byte` (lines 189-202): word-aligned read-modify-write of
one byte of tracee memory.  Returns the overwritten byte and the new tracee
state, or `none` when the trace read fails (the `?` on `ptrace::read`). -/
def write_byte (t : Tracee) (addr : Addr) (val : Byte) : Option (Byte × Tracee) :=
  let aligned_addr := align_addr_to_word addr
  let byte_offset := addr - aligned_addr
  match t.mem aligned_addr with
  | none => none
  | some word =>
    let orig_byte := (word >>> (8 * byte_offset)) &&& 0xff
    let masked_word := word &&& ((2 ^ 64 - 1) ^^^ (0xff <<< (8 * byte_offset)))
    let updated_word := masked_word ||| ((val <<< (8 * byte_offset)))
    some (orig_byte,
      { t with mem := fun a => if a = aligned_addr then some updated_word else t.mem a })

/-- `Inferior::set_breakpoint` (lines 204-213): patches `0xcc` at `addr` and
records the returned byte in the table; on patch failure the error is printed
and nothing is recorded.  There is no already-installed check.  The index `i`
only feeds the log message. -/
def set_breakpoint (inf : Inferior) (addr : Addr) (_i : Nat) : Inferior :=
  match write_byte inf.tracee addr 0xcc with
  | some (orig_byte, t) =>
      { tracee := t,
        breakpoints_map := fun a =>
          if a = addr then some { addr := addr, orig_byte := orig_byte }
          else inf.breakpoints_map a }
  | none => inf

/-- One OS wait result, in the order `waitpid` will deliver them.  A
`stopped` event also carries the register state the child has when that stop
is observed (the child ran since the last resume).  `waitErr` models a
failing `waitpid` call, `unexpected` any wait status outside the three
represented categories (e.g. a ptrace event or group-continue). -/
inductive OSWait where
  | exited (code : Int)
  | signaled (sig : Signal)
  | stopped (sig : Signal) (regs : Regs)
  | waitErr (e : NixError)
  | unexpected
deriving Repr

/-- Controller state together with the pending script of OS wait results.
`history` is an observation log, oldest first: the tracee state as it stood
at each `waitpid` boundary, i.e. while the child was last running and at the
moment the corresponding stop is delivered. -/
structure World where
  inf : Inferior
  script : List OSWait
  history : List Tracee

/-- `Inferior::wait` (lines 81-91): translates the next `waitpid` result.
`Exited`/`Signaled`/`Stopped` map to the three `Status` variants; on a stop
the register file is fetched fresh (`ptrace::getregs`) to report the current
program counter; any other wait status hits `panic!`.  An exhausted script
plays a failing `waitpid` (no child state available). -/
def doWait (w : World) : Outcome Status × World :=
  match w.script with
  | [] => (Outcome.error 10, w)
  | e :: rest =>
    let wl : World := { w with script := rest, history := w.history ++ [w.inf.tracee] }
    match e with
    | OSWait.exited code => (Outcome.ok (Status.Exited code), wl)
    | OSWait.signaled sig => (Outcome.ok (Status.Signaled sig), wl)
    | OSWait.stopped sig regs =>
        let wu : World := { wl with inf := { wl.inf with tracee := { wl.inf.tracee with regs := regs } } }
        (Outcome.ok (Status.Stopped sig (getregs wu.inf.tracee).rip), wu)
    | OSWait.waitErr e => (Outcome.error e, wl)
    | OSWait.unexpected => (Outcome.panicked, wl)

/-- `Inferior::continue_from_breakpoint` (lines 215-246).  Line 216 issues
`ptrace::step(pid, SIGTRAP)` and discards its result; the resulting stop is
the next script event.  After a trap stop it re-writes `0xcc` at `bp`
(line 220, `.expect` on failure), resumes (line 222), and on the next trap
stop whose `rip - 1` is a known breakpoint restores that breakpoint's
original byte (lines 227-231, `.unwrap` on failure) and then executes
line 232, `ptrace::getregs(self.pid()).unwrap().rip = (rip - 1) as u64`,
which mutates only the local register copy — no `setregs` write-back is
issued, so the tracee's registers are not changed — before resuming again
(line 234) and returning the following wait's event. -/
def continue_from_breakpoint (w : World) (bp : Addr) : Outcome Status × World :=
  match doWait w with
  | (Outcome.ok (Status.Stopped Signal.SIGTRAP _), w1) =>
      match write_byte w1.inf.tracee bp 0xcc with
      | none => (Outcome.panicked, w1)
      | some (_orig, t1) =>
        let w2 : World := { w1 with inf := { w1.inf with tracee := t1 } }
        match doWait w2 with
        | (Outcome.ok (Status.Stopped Signal.SIGTRAP rip), w3) =>
            match usizeSub rip 1 with
            | none => (Outcome.panicked, w3)
            | some prev =>
              match w3.inf.breakpoints_map prev with
              | some bkpt =>
                  match write_byte w3.inf.tracee prev bkpt.orig_byte with
                  | none => (Outcome.panicked, w3)
                  | some (_b, t2) =>
                    let w4 : World := { w3 with inf := { w3.inf with tracee := t2 } }
                    let _regs : Regs := { getregs w4.inf.tracee with rip := prev }
                    doWait w4
              | none => doWait w3
        | (Outcome.ok status, w3) => (Outcome.ok status, w3)
        | (Outcome.error e, w3) => (Outcome.error e, w3)
        | (Outcome.panicked, w3) => (Outcome.panicked, w3)
  | (Outcome.ok status, w1) => (Outcome.ok status, w1)
  | (Outcome.error e, w1) => (Outcome.error e, w1)
  | (Outcome.panicked, w1) => (Outcome.panicked, w1)

/-- `Inferior::continue_process` (lines 116-131): resume, wait, and on a
trap stop whose `rip - 1` is in the breakpoint table enter
`continue_from_breakpoint`; every other event is returned unchanged. -/
def continue_process (w : World) : Outcome Status × World :=
  match doWait w with
  | (Outcome.ok (Status.Stopped Signal.SIGTRAP rip), w1) =>
      match usizeSub rip 1 with
      | none => (Outcome.panicked, w1)
      | some prev =>
        if (w1.inf.breakpoints_map prev).isSome then
          continue_from_breakpoint w1 prev
        else
          (Outcome.ok (Status.Stopped Signal.SIGTRAP rip), w1)
  | (Outcome.ok status, w1) => (Outcome.ok status, w1)
  | (Outcome.error e, w1) => (Outcome.error e, w1)
  | (Outcome.panicked, w1) => (Outcome.panicked, w1)

/-- Result of `Inferior::new`, whose Rust signature is `Option<Inferior>`:
`panicked` records that the call aborted via `.expect`/`panic!` instead of
returning at all. -/
inductive NewResult where
  | someInferior (inf : Inferior)
  | noneResult
  | panicked

/-- The `for (i, bp) in breakpoints.iter().enumerate()` loop of lines 65-67. -/
def installBreakpoints (inf : Inferior) (breakpoints : List Addr) : Inferior :=
  breakpoints.enum.foldl (fun acc p => set_breakpoint acc p.2 p.1) inf

/-- `Inferior::new` (lines 51-72).  `spawnResult` is the outcome of
`cmd.spawn()`: `some child` on success, `none` when the spawn itself fails —
the source calls `.expect("Failed to spawn child process")` on it, so a
spawn failure panics.  After a successful spawn it waits once; any `Ok`
status (a stop is not required) leads to installing the breakpoints and
returning `Some(inferior)`, and only an `Err` from the wait yields `None`. -/
def Inferior.new (spawnResult : Option Tracee) (breakpoints : List Addr)
    (script : List OSWait) : NewResult × List OSWait :=
  match spawnResult with
  | none => (NewResult.panicked, script)
  | some child =>
    let inferior : Inferior := { tracee := child, breakpoints_map := fun _ => none }
    match doWait { inf := inferior, script := script, history := [] } with
    | (Outcome.ok _, w1) =>
        (NewResult.someInferior (installBreakpoints w1.inf breakpoints), w1.script)
    | (Outcome.error _, w1) => (NewResult.noneResult, w1.script)
    | (Outcome.panicked, w1) => (NewResult.panicked, w1.script)

/-- A source file/line record of the debug-information collaborator; its
`Default` is the empty file name and line 0 (`unwrap_or_default`). -/
structure Line where
  file : String
  number : Nat
deriving Repr, DecidableEq, Inhabited

/-- Interface of the external debug-information collaborator (`DwarfData`). -/
structure DwarfData where
  get_function_from_addr : Addr → Option String
  get_line_from_addr : Addr → Option Line

/-- One emitted backtrace frame: `println!("{} ({}:{})", function, line.file,
line.number)` of line 156. -/
structure Frame where
  function : String
  file : String
  number : Nat
deriving Repr, DecidableEq

/-- How a backtrace walk ended: the resolved name was `"main"` (line 157),
a read of the saved return address failed (lines 161-167), a read of the
saved frame pointer failed (lines 168-174), or the walk was cut short only
by the external fuel bound (the source loop itself has no iteration bound). -/
inductive WalkStop where
  | reachedMain
  | readErrorRip (addr : Addr)
  | readErrorRbp (addr : Addr)
  | fuelOut
deriving Repr, DecidableEq

/-- The `loop` of `Inferior::print_backtrace` (lines 149-175), with an
explicit fuel parameter to make the recursion well-founded in Lean: each
iteration resolves and emits one frame, stops if the resolved name is
`"main"`, otherwise reads the next instruction pointer from the word at
`base_ptr + 8` and the next base pointer from the word at `base_ptr`,
stopping early if either read fails. -/
def backtraceLoop (mem : Addr → Option Nat) (dd : DwarfData) :
    Nat → Nat → Nat → List Frame × WalkStop
  | 0, _, _ => ([], WalkStop.fuelOut)
  | fuel + 1, instruction_ptr, base_ptr =>
    let function := (dd.get_function_from_addr instruction_ptr).getD "Unable to get function name"
    let line := (dd.get_line_from_addr instruction_ptr).getD default
    let frame : Frame := { function := function, file := line.file, number := line.number }
    if function = "main" then ([frame], WalkStop.reachedMain)
    else
      match mem (base_ptr + 8) with
      | none => ([frame], WalkStop.readErrorRip (base_ptr + 8))
      | some iptr =>
        match mem base_ptr with
        | none => ([frame], WalkStop.readErrorRbp base_ptr)
        | some bptr =>
          let rest := backtraceLoop mem dd fuel iptr bptr
          (frame :: rest.1, rest.2)

/-- `Inferior::print_backtrace` (lines 144-179): read the current registers
and start the walk from `rip` and `rbp`. -/
def print_backtrace (t : Tracee) (dd : DwarfData) (fuel : Nat) : List Frame × WalkStop :=
  backtraceLoop t.mem dd fuel (getregs t).rip (getregs t).rbp

/-! ### Concrete fixtures used by witnesses and counterexamples -/

/-- Concrete tracee memory: one mapped code word at `0x1000` and one at
`0x2000`, each holding the byte `0x90` at offset 0; everything else is
unmapped. -/
def memT : Addr → Option Nat := fun a =>
  if a = 0x1000 then some 0x90 else if a = 0x2000 then some 0x90 else none

def traceeT : Tracee := { mem := memT, regs := { rip := 0, rbp := 0 } }

/-- A freshly spawned inferior on `traceeT`, empty breakpoint table. -/
def infT0 : Inferior := { tracee := traceeT, breakpoints_map := fun _ => none }

/-- `infT0` after installing breakpoints at `0x1000` and `0x2000`, exactly
as `Inferior::new` does after its initial wait. -/
def infT : Inferior := installBreakpoints infT0 [0x1000, 0x2000]

/-- Scenario: the child traps at `0x1001` (breakpoint `0x1000` hit), the
single-step traps at `0x1002`, continuation traps at `0x2001` (breakpoint
`0x2000` hit, triggering the nested re-check and the line-232 register
snapshot mutation), then the final resume exits with status 7. -/
def worldC1 : World :=
  { inf := infT,
    script := [OSWait.stopped Signal.SIGTRAP { rip := 0x1001, rbp := 0 },
               OSWait.stopped Signal.SIGTRAP { rip := 0x1002, rbp := 0 },
               OSWait.stopped Signal.SIGTRAP { rip := 0x2001, rbp := 0 },
               OSWait.exited 7],
    history := [] }

/-- Scenario: the child traps at `0x1001` (breakpoint `0x1000` hit), the
single-step traps at `0x1002`, and the subsequent resume runs to a clean
exit with status 0. -/
def worldC3 : World :=
  { inf := infT,
    script := [OSWait.stopped Signal.SIGTRAP { rip := 0x1001, rbp := 0 },
               OSWait.stopped Signal.SIGTRAP { rip := 0x1002, rbp := 0 },
               OSWait.exited 0],
    history := [] }

/-- Scenario: a trap stop reports program counter 0 directly. -/
def worldC10a : World :=
  { inf := infT,
    script := [OSWait.stopped Signal.SIGTRAP { rip := 0, rbp := 0 }],
    history := [] }

/-- Scenario: breakpoint `0x1000` is hit, and the trap stop observed by the
nested re-check inside `continue_from_breakpoint` reports program counter 0. -/
def worldC10b : World :=
  { inf := infT,
    script := [OSWait.stopped Signal.SIGTRAP { rip := 0x1001, rbp := 0 },
               OSWait.stopped Signal.SIGTRAP { rip := 0x7, rbp := 0 },
               OSWait.stopped Signal.SIGTRAP { rip := 0, rbp := 0 }],
    history := [] }

/-- A debug-information collaborator that resolves nothing: every lookup
misses, so every frame renders with the fallback placeholders and no frame
is ever named `"main"`. -/
def emptyDwarf : DwarfData :=
  { get_function_from_addr := fun _ => none, get_line_from_addr := fun _ => none }

/-! ### Word arithmetic facts about the memory patcher -/

theorem byteAt_lt (w k : Nat) : byteAt w k < 256 :=
  lt_of_le_of_lt Nat.and_le_right (by norm_num)

theorem testBit_byteAt (w k i : Nat) :
    (byteAt w k).testBit i = (w.testBit (8 * k + i) && decide (i < 8)) := by
  have h255 : (0xff : Nat) = 2 ^ 8 - 1 := by norm_num
  rw [byteAt, Nat.testBit_land, Nat.testBit_shiftRight, h255,
    Nat.testBit_two_pow_sub_one]

theorem byte_ext {a b : Nat} (ha : a < 256) (hb : b < 256)
    (h : ∀ i, i < 8 → a.testBit i = b.testBit i) : a = b := by
  apply Nat.eq_of_testBit_eq
  intro i
  by_cases hi : i < 8
  · exact h i hi
  · have h2 : (256 : Nat) ≤ 2 ^ i := by
      calc (256 : Nat) = 2 ^ 8 := by norm_num
      _ ≤ 2 ^ i := Nat.pow_le_pow_right (by norm_num) (by omega)
    rw [Nat.testBit_lt_two_pow (lt_of_lt_of_le ha h2),
      Nat.testBit_lt_two_pow (lt_of_lt_of_le hb h2)]

theorem testBit_word_lt {w : Nat} (hw : w < 2 ^ 64) {m : Nat} (hm : 64 ≤ m) :
    w.testBit m = false := by
  have : (2 : Nat) ^ 64 ≤ 2 ^ m := Nat.pow_le_pow_right (by norm_num) hm
  exact Nat.testBit_lt_two_pow (lt_of_lt_of_le hw this)

theorem align_addr_to_word_eq {addr : Nat} (h : addr < 2 ^ 64) :
    align_addr_to_word addr = addr - addr % 8 := by
  have hmask : (2 : Nat) ^ 64 - 8 = (2 ^ 61 - 1) <<< 3 := by
    rw [Nat.shiftLeft_eq]; norm_num
  have hrhs : addr - addr % 8 = (addr >>> 3) <<< 3 := by
    rw [Nat.shiftLeft_eq, Nat.shiftRight_eq_div_pow]
    have h8 : (2 : Nat) ^ 3 = 8 := by norm_num
    rw [h8]
    omega
  rw [align_addr_to_word, hmask, hrhs]
  apply Nat.eq_of_testBit_eq
  intro i
  rw [Nat.testBit_land, Nat.testBit_shiftLeft, Nat.testBit_shiftLeft,
    Nat.testBit_two_pow_sub_one, Nat.testBit_shiftRight]
  by_cases h3 : 3 ≤ i
  · have d1 : decide (3 ≤ i) = true := decide_eq_true h3
    have hi : 3 + (i - 3) = i := by omega
    by_cases h64 : i < 64
    · have d2 : decide (i - 3 < 61) = true := decide_eq_true (by omega)
      rw [d1, d2, hi]
      simp
    · have h1 : addr.testBit i = false := testBit_word_lt h (by omega)
      have d2 : decide (i - 3 < 61) = false := decide_eq_false (by omega)
      rw [d1, d2, hi, h1]
      simp
  · have d1 : decide (3 ≤ i) = false := decide_eq_false h3
    rw [d1]
    simp

theorem byte_offset_eq {addr : Nat} (h : addr < 2 ^ 64) :
    addr - align_addr_to_word addr = addr % 8 := by
  rw [align_addr_to_word_eq h]
  omega

theorem testBit_notmask (k m : Nat) :
    ((2 ^ 64 - 1) ^^^ (0xff <<< (8 * k))).testBit m
      = (decide (m < 64) ^^ (decide (8 * k ≤ m) && decide (m - 8 * k < 8))) := by
  have h255 : (0xff : Nat) = 2 ^ 8 - 1 := by norm_num
  rw [Nat.testBit_xor, Nat.testBit_shiftLeft, Nat.testBit_two_pow_sub_one, h255,
    Nat.testBit_two_pow_sub_one]

theorem byteAt_update_self {W val k : Nat} (hval : val < 256) (hk : k < 8) :
    byteAt ((W &&& ((2 ^ 64 - 1) ^^^ (0xff <<< (8 * k)))) ||| (val <<< (8 * k))) k = val := by
  apply byte_ext (byteAt_lt _ _) hval
  intro i hi
  rw [testBit_byteAt]
  have dm : decide (i < 8) = true := decide_eq_true hi
  rw [dm, Bool.and_true]
  set m := 8 * k + i with hm
  rw [Nat.testBit_lor, Nat.testBit_land, testBit_notmask, Nat.testBit_shiftLeft]
  have d1 : decide (m < 64) = true := decide_eq_true (by omega)
  have d2 : decide (8 * k ≤ m) = true := decide_eq_true (by omega)
  have d3 : decide (m - 8 * k < 8) = true := decide_eq_true (by omega)
  have hmk : m - 8 * k = i := by omega
  rw [d1, d2, d3, hmk]
  simp

theorem byteAt_update_other {W val k j : Nat} (hval : val < 256)
    (hk : k < 8) (hj : j < 8) (hjk : j ≠ k) :
    byteAt ((W &&& ((2 ^ 64 - 1) ^^^ (0xff <<< (8 * k)))) ||| (val <<< (8 * k))) j
      = byteAt W j := by
  apply byte_ext (byteAt_lt _ _) (byteAt_lt _ _)
  intro i hi
  rw [testBit_byteAt, testBit_byteAt]
  have dm : decide (i < 8) = true := decide_eq_true hi
  rw [dm, Bool.and_true, Bool.and_true]
  set m := 8 * j + i with hm
  rw [Nat.testBit_lor, Nat.testBit_land, testBit_notmask, Nat.testBit_shiftLeft]
  have d1 : decide (m < 64) = true := decide_eq_true (by omega)
  by_cases hle : 8 * k ≤ m
  · have d2 : decide (8 * k ≤ m) = true := decide_eq_true hle
    have hge : 8 ≤ m - 8 * k := by omega
    have d3 : decide (m - 8 * k < 8) = false := decide_eq_false (by omega)
    have hv : val.testBit (m - 8 * k) = false := by
      have h2 : (256 : Nat) ≤ 2 ^ (m - 8 * k) := by
        calc (256 : Nat) = 2 ^ 8 := by norm_num
        _ ≤ 2 ^ (m - 8 * k) := Nat.pow_le_pow_right (by norm_num) hge
      exact Nat.testBit_lt_two_pow (lt_of_lt_of_le hval h2)
    rw [d1, d2, d3, hv]
    simp
  · have d2 : decide (8 * k ≤ m) = false := decide_eq_false hle
    rw [d1, d2]
    simp

theorem write_byte_eq (t : Tracee) (addr : Addr) (val : Byte) (W : Nat)
    (hmem : t.mem (align_addr_to_word addr) = some W) :
    write_byte t addr val = some ((W >>> (8 * (addr - align_addr_to_word addr))) &&& 0xff,
      { t with mem := fun a => if a = align_addr_to_word addr
          then some ((W &&& ((2 ^ 64 - 1) ^^^ (0xff <<< (8 * (addr - align_addr_to_word addr)))))
            ||| (val <<< (8 * (addr - align_addr_to_word addr))))
          else t.mem a }) := by
  simp only [write_byte, hmem]

/-- C4: `write_byte` at any in-range address and byte value performs a
word-aligned read-modify-write: for the containing aligned word `W` and the
byte offset `k = addr % 8` of the address within it, the word written back
equals `W` with exactly byte `k` replaced by the new value, every other byte
of `W` preserved exactly (and every other word of memory untouched), and the
returned value is the byte that previously occupied offset `k`. -/
theorem write_byte_is_aligned_byte_patch (t : Tracee) (addr : Addr) (val : Byte) (W : Nat)
    (haddr : addr < 2 ^ 64) (hmem : t.mem (align_addr_to_word addr) = some W)
    (hval : val < 256) :
    ∃ t', write_byte t addr val = some (byteAt W (addr % 8), t') ∧
      ∃ U, t'.mem (align_addr_to_word addr) = some U ∧
        byteAt U (addr % 8) = val ∧
        (∀ j, j < 8 → j ≠ addr % 8 → byteAt U j = byteAt W j) ∧
        ∀ a, a ≠ align_addr_to_word addr → t'.mem a = t.mem a := by
  have hoff := byte_offset_eq haddr
  have hk : addr % 8 < 8 := Nat.mod_lt _ (by norm_num)
  have heq := write_byte_eq t addr val W hmem
  rw [hoff] at heq
  refine ⟨_, heq, _, ?_, byteAt_update_self hval hk,
    fun j hj hjk => byteAt_update_other hval hk hj hjk, fun a ha => ?_⟩
  · simp
  · simp [ha]

/-- C4 witness: the byte-patch theorem instantiated at the concrete tracee
`traceeT`, patching byte offset 3 of the word at `0x1000` with `0xab`. -/
theorem write_byte_is_aligned_byte_patch_witness :
    traceeT.mem (align_addr_to_word 0x1003) = some 0x90 ∧
    ∃ t', write_byte traceeT 0x1003 0xab = some (byteAt 0x90 (0x1003 % 8), t') ∧
      ∃ U, t'.mem (align_addr_to_word 0x1003) = some U ∧
        byteAt U (0x1003 % 8) = 0xab ∧
        (∀ j, j < 8 → j ≠ 0x1003 % 8 → byteAt U j = byteAt 0x90 j) ∧
        ∀ a, a ≠ align_addr_to_word 0x1003 → t'.mem a = traceeT.mem a :=
  ⟨rfl, write_byte_is_aligned_byte_patch traceeT 0x1003 0xab 0x90 (by norm_num) rfl (by norm_num)⟩

/-! ### Claims about the breakpoint table and the lifecycle manager -/

/-- C2 (code defect): installing a breakpoint twice at the same address is
not idempotent.  `set_breakpoint` has no already-installed check: the first
install at `0x1000` records the true original byte `0x90`, but a second
install reads back the trap opcode it wrote and overwrites the table entry
with `orig_byte = 0xcc`. -/
theorem set_breakpoint_reinstall_overwrites_orig_byte :
    (set_breakpoint infT0 0x1000 0).breakpoints_map 0x1000
        = some { addr := 0x1000, orig_byte := 0x90 } ∧
    (set_breakpoint (set_breakpoint infT0 0x1000 0) 0x1000 1).breakpoints_map 0x1000
        = some { addr := 0x1000, orig_byte := 0xcc } ∧
    (0xcc : Nat) ≠ 0x90 :=
  ⟨rfl, rfl, by decide⟩

/-- C6 (code defect): `Inferior::new` does not surface every start failure
as an absent return value.  A failing spawn hits
`.expect("Failed to spawn child process")` and panics instead of returning
`None`, and an initial wait that reports an exit rather than a stop is still
treated as a successful start. -/
theorem new_panics_on_spawn_failure :
    (Inferior.new none [] []).1 = NewResult.panicked ∧
    ∃ inf, (Inferior.new (some traceeT) [] [OSWait.exited 0]).1 = NewResult.someInferior inf :=
  ⟨rfl, ⟨_, rfl⟩⟩

/-- C7: `Inferior::wait` translates every OS wait result into exactly one of
the three `Status` variants — `Exited` with the exit code, `Signaled` with
the signal, `Stopped` with the signal and a freshly read program counter —
a failing `waitpid` propagates as an error, and any wait status outside the
three represented categories hits `panic!` (a hard stop), never a silently
absorbed or recoverable result. -/
theorem wait_translates_every_status :
    (∀ inf rest hist code, doWait ⟨inf, OSWait.exited code :: rest, hist⟩
        = (Outcome.ok (Status.Exited code), ⟨inf, rest, hist ++ [inf.tracee]⟩)) ∧
    (∀ inf rest hist sig, doWait ⟨inf, OSWait.signaled sig :: rest, hist⟩
        = (Outcome.ok (Status.Signaled sig), ⟨inf, rest, hist ++ [inf.tracee]⟩)) ∧
    (∀ inf rest hist sig regs, doWait ⟨inf, OSWait.stopped sig regs :: rest, hist⟩
        = (Outcome.ok (Status.Stopped sig regs.rip),
            ⟨{ inf with tracee := { inf.tracee with regs := regs } }, rest,
              hist ++ [inf.tracee]⟩)) ∧
    (∀ inf rest hist e, doWait ⟨inf, OSWait.waitErr e :: rest, hist⟩
        = (Outcome.error e, ⟨inf, rest, hist ++ [inf.tracee]⟩)) ∧
    (∀ inf rest hist, doWait ⟨inf, OSWait.unexpected :: rest, hist⟩
        = (Outcome.panicked, ⟨inf, rest, hist ++ [inf.tracee]⟩)) :=
  ⟨fun _ _ _ _ => rfl, fun _ _ _ _ => rfl, fun _ _ _ _ _ => rfl,
    fun _ _ _ _ => rfl, fun _ _ _ => rfl⟩

/-- C8: a failing byte patch during breakpoint installation is non-fatal:
`set_breakpoint` records nothing and leaves the controller unchanged, and
during `Inferior::new` installation proceeds for every remaining requested
address — here the unmapped `0x5000` fails while `0x1000` is still
installed — and the start as a whole still returns an inferior. -/
theorem breakpoint_install_failure_is_non_fatal :
    (∀ inf addr i, write_byte inf.tracee addr 0xcc = none → set_breakpoint inf addr i = inf) ∧
    (∃ inf, (Inferior.new (some traceeT) [0x5000, 0x1000]
        [OSWait.stopped Signal.SIGTRAP { rip := 0, rbp := 0 }]).1
          = NewResult.someInferior inf ∧
      inf.breakpoints_map 0x5000 = none ∧
      inf.breakpoints_map 0x1000 = some { addr := 0x1000, orig_byte := 0x90 }) := by
  constructor
  · intro inf addr i h
    simp [set_breakpoint, h]
  · exact ⟨_, rfl, rfl, rfl⟩

/-- C8 witness: the non-recording half of the theorem applied at the
concrete unmapped address `0x5000` of `infT0`. -/
theorem breakpoint_install_failure_is_non_fatal_witness :
    write_byte infT0.tracee 0x5000 0xcc = none ∧ set_breakpoint infT0 0x5000 0 = infT0 :=
  ⟨rfl, breakpoint_install_failure_is_non_fatal.1 infT0 0x5000 0 rfl⟩

/-! ### Claims about the continuation state machine -/

/-- C3 (code defect): the first `continue` after installing a breakpoint at
`A = 0x1000` does not return `Stopped(SIGTRAP, A)`.  On the trap stop at
`A + 1` the code immediately enters the step-over protocol and keeps the
child running, so the caller's first `continue` returns the *next* event —
here `Exited 0` — and the breakpoint stop at `A` is never reported. -/
theorem first_continue_swallows_breakpoint_stop :
    (continue_process worldC3).1 = Outcome.ok (Status.Exited 0) ∧
    Outcome.ok (Status.Exited 0) ≠ Outcome.ok (Status.Stopped Signal.SIGTRAP 0x1000) :=
  ⟨rfl, by decide⟩

/-- C1 (code defect): the step-over protocol never rewrites the tracee's
program counter to the breakpoint address.  Line 232 mutates only a local
copy of the register snapshot and no register write-back is ever issued: in
the `worldC1` run the nested re-check fires for breakpoint `0x2000`, yet the
tracee's `rip` at the following resume boundary (history entry 3) is still
the trap-advanced `0x2001`, not `0x2000`. -/
theorem stepOver_pc_write_back_missing :
    ((continue_process worldC1).2.history[3]?).map (fun t => t.regs.rip) = some 0x2001 ∧
    (0x2001 : Nat) ≠ 0x2000 :=
  ⟨rfl, by decide⟩

/-- C5 (code defect): during the single-step window of the step-over
protocol for breakpoint `0x1000` (history entry 1 of the `worldC1` run) the
byte in tracee memory at `0x1000` is still the trap opcode `0xcc`, not the
recorded original byte `0x90`: `continue_from_breakpoint` single-steps
without ever restoring the original byte. -/
theorem stepOver_window_keeps_trap_opcode :
    ((continue_process worldC1).2.history[1]?).map
        (fun t => (t.mem 0x1000).map (fun w => byteAt w 0)) = some (some 0xcc) ∧
    infT.breakpoints_map 0x1000 = some { addr := 0x1000, orig_byte := 0x90 } ∧
    (0xcc : Nat) ≠ 0x90 :=
  ⟨rfl, rfl, by decide⟩

/-- C10: whenever continuation observes a trap-signal stop it computes the
candidate breakpoint address as `reported_pc - 1` on an unsigned integer
before consulting the table; the subtraction is well-defined exactly when
the reported program counter is at least 1, and for a trap stop reporting
program counter 0 both `continue_process` and the nested re-check inside
`continue_from_breakpoint` underflow (a debug-build panic). -/
theorem trap_pc_minus_one_requires_positive_pc :
    (∀ rip : Nat, usizeSub (rip + 1) 1 = some rip) ∧
    usizeSub 0 1 = none ∧
    (continue_process worldC10a).1 = Outcome.panicked ∧
    (continue_process worldC10b).1 = Outcome.panicked :=
  ⟨fun rip => by simp [usizeSub], rfl, rfl, rfl⟩

/-! ### Claims about the backtrace walker -/

theorem backtraceLoop_succ (mem : Addr → Option Nat) (dd : DwarfData) (fuel ip bp : Nat) :
    backtraceLoop mem dd (fuel + 1) ip bp =
      (let function := (dd.get_function_from_addr ip).getD "Unable to get function name"
       let line := (dd.get_line_from_addr ip).getD default
       let frame : Frame := { function := function, file := line.file, number := line.number }
       if function = "main" then ([frame], WalkStop.reachedMain)
       else
         match mem (bp + 8) with
         | none => ([frame], WalkStop.readErrorRip (bp + 8))
         | some iptr =>
           match mem bp with
           | none => ([frame], WalkStop.readErrorRbp bp)
           | some bptr =>
             (frame :: (backtraceLoop mem dd fuel iptr bptr).1,
               (backtraceLoop mem dd fuel iptr bptr).2)) := rfl

/-- C9: each iteration of the backtrace walker emits exactly one frame and
stops only when the resolved name is `"main"` or a memory read fails; each
advance reads the next instruction pointer from the word 8 bytes above the
current base pointer and the next base pointer from the word at the current
base pointer (first conjunct, the loop-body characterization).  The walker
imposes no frame-count bound of its own: on an always-readable cyclic frame
chain that never resolves to `"main"` it emits one frame per unit of fuel
for every fuel (second conjunct).  A `readErrorRip` outcome really reports a
failing read: the reported address is unmapped (third conjunct). -/
theorem backtrace_walker_shape :
    (∀ mem dd fuel ip bp, backtraceLoop mem dd (fuel + 1) ip bp =
      (let function := (dd.get_function_from_addr ip).getD "Unable to get function name"
       let line := (dd.get_line_from_addr ip).getD default
       let frame : Frame := { function := function, file := line.file, number := line.number }
       if function = "main" then ([frame], WalkStop.reachedMain)
       else
         match mem (bp + 8) with
         | none => ([frame], WalkStop.readErrorRip (bp + 8))
         | some iptr =>
           match mem bp with
           | none => ([frame], WalkStop.readErrorRbp bp)
           | some bptr =>
             (frame :: (backtraceLoop mem dd fuel iptr bptr).1,
               (backtraceLoop mem dd fuel iptr bptr).2))) ∧
    (∀ fuel, (backtraceLoop (fun _ => some 0) emptyDwarf fuel 0 0).1.length = fuel ∧
             (backtraceLoop (fun _ => some 0) emptyDwarf fuel 0 0).2 = WalkStop.fuelOut) ∧
    (∀ mem dd fuel ip bp a,
      (backtraceLoop mem dd fuel ip bp).2 = WalkStop.readErrorRip a → mem a = none) := by
  refine ⟨fun mem dd fuel ip bp => rfl, fun fuel => ?_, fun mem dd fuel => ?_⟩
  · induction fuel with
    | zero => exact ⟨rfl, rfl⟩
    | succ n ih =>
      rw [backtraceLoop_succ]
      simp only [emptyDwarf, Option.getD_none]
      rw [if_neg (by decide)]
      exact ⟨by simpa using ih.1, by simpa using ih.2⟩
  · induction fuel with
    | zero => intro ip bp a h; simp [backtraceLoop] at h
    | succ n ih =>
      intro ip bp a h
      rw [backtraceLoop_succ] at h
      simp only at h
      split at h
      · simp at h
      · split at h
        · next hm => simp at h; rw [← h]; exact hm
        · split at h
          · simp at h
          · exact ih _ _ _ (by simpa using h)

/-- C9 witness: the read-failure conjunct applied to a concrete one-step
walk whose saved-return-address read at `0 + 8` fails. -/
theorem backtrace_walker_shape_witness :
    (backtraceLoop (fun a => if a = 8 then none else some 0) emptyDwarf 1 0 0).2
        = WalkStop.readErrorRip 8 ∧
    (fun a : Addr => if a = 8 then none else some (0 : Nat)) 8 = none :=
  ⟨rfl, backtrace_walker_shape.2.2 (fun a => if a = 8 then none else some 0)
    emptyDwarf 1 0 0 8 rfl⟩

end Deet
